import Mathlib

/-!
Shallow embedding of the data-processing pipeline in `src/data_processing.py`
(functions `ingest_data`, `detect_anomalies`, `summarize_metrics`), together
with theorems settling the specification claims about it.

Modelling conventions.

A pandas DataFrame is modelled as a `Frame`: a list of `Row` values plus two
column-presence flags.  Every cell that can be missing (NaN / NaT / a column
that a batch did not supply) is an `Option`; `none` plays the role of the
missing marker.  Two facts about pandas that the model relies on: both
`drop_duplicates` and `merge` treat missing markers as equal to each other
(so plain `Option` equality is the right notion of cell equality), and
comparisons (`<`, `>`) against a missing float are false.

Numbers: float sensor values are modelled as `Rat`, timestamps as
`Option Int` in their post-`to_datetime` form (an unparseable raw timestamp is
already `none`; the coercion at line 40 of the source is then the identity).
The float square root used by `Series.std` has no exact rational counterpart,
so `detect_anomalies` is parametrised by the function `sq` it applies to the
sample variance; every theorem below either holds for all such functions or
requires only that `sq 0 = 0`, which the true square root satisfies.  No
theorem depends on the value of a score produced from a nonzero variance.

Column presence: the four base columns (`timestamp`, `sensor`, `value`,
`quality`) are treated as present in every frame, with a batch that lacks one
of them contributing `none` cells (this is exactly what `pd.concat` column
alignment produces as long as at least one batch has the column; the claims
never exercise the remaining corner, where line 40, 51 or 54 of the source
would raise a KeyError).  Presence of the derived columns is tracked by the
flags `hasOutlier` and `hasAnomaly`, because it is observable: when the input
of `detect_anomalies` already carries the three anomaly columns, the merge at
lines 142-146 of the source suffixes the overlapping column names with `_x`
and `_y`, so the lookup `result["is_anomaly"]` at line 147 raises a KeyError.

Two behaviours of the source are bugs that the embedding reproduces
faithfully:
* `summarize_metrics` (lines 199-261) has no implementation; its body is the
  docstring followed by `raise NotImplementedError(...)`.
* the informational print at line 60 formats `bad_percentage` with the
  format specifier `.2f` followed by a space (the source writes spaces inside
  the braces of the f-string).  `float.__format__` rejects that specifier, so
  every call of `ingest_data` with `validate=True` raises
  `ValueError: Invalid format specifier` at line 60, before the BAD-row
  filter, the sort and the outlier flags (lines 63-73, dead code) can run.
  The cleaning steps of lines 45-54 do run first; they appear below as
  discarded bindings so that the control flow of the source is visible.
-/

namespace DataProcessing

/-- One row of a dataset (one sensor Reading).  Missing cells are `none`.
The last four fields model derived columns; a row of a frame whose
corresponding presence flag is false keeps them at `none`. -/
structure Row where
  timestamp : Option Int
  sensor : Option String
  value : Option Rat
  quality : Option String
  is_outlier : Option Bool := none
  is_anomaly : Option Bool := none
  anomaly_score : Option Rat := none
  detection_method : Option String := none
  deriving DecidableEq

/-- A tabular dataset: rows plus presence flags for the derived columns
(`is_outlier`; the triple `is_anomaly` / `anomaly_score` /
`detection_method`). -/
structure Frame where
  hasOutlier : Bool := false
  hasAnomaly : Bool := false
  rows : List Row
  deriving DecidableEq

/-- One element of the `data_batches` argument of `ingest_data`: either not a
DataFrame at all (line 34 of the source filters those by `isinstance`), or a
frame. -/
inductive Batch where
  | invalid : Batch
  | frame : Frame → Batch
  deriving DecidableEq

/-- The Python exceptions the three functions can raise. -/
inductive PyErr where
  | valueError : PyErr
  | keyError : PyErr
  | notImplementedError : PyErr
  deriving DecidableEq

/-- The `(timestamp, sensor)` join key used by the merge at lines 142-146. -/
def key (r : Row) : Option Int × Option String :=
  (r.timestamp, r.sensor)

/-- The non-derived part of a row: the columns `detect_anomalies` receives
from its caller and must hand back unchanged. -/
def base (r : Row) : Option Int × Option String × Option Rat × Option String × Option Bool :=
  (r.timestamp, r.sensor, r.value, r.quality, r.is_outlier)

/-- Pandas `Series.dropna` on the `value` column of a list of rows: the list
of the non-missing values, in row order. -/
def validValues (rows : List Row) : List Rat :=
  rows.filterMap (·.value)

/-- Pandas `Series.mean` of a list of (non-missing) values. -/
def listMean (l : List Rat) : Rat :=
  l.sum / l.length

/-- Pandas `Series.var` with the default `ddof=1` (sample variance).  Only
used under a guard that the list has at least two elements. -/
def sampleVar (l : List Rat) : Rat :=
  (l.map (fun v => (v - listMean l) ^ 2)).sum / ((l.length : Rat) - 1)

/-- Pandas `Series.quantile` with the default linear interpolation, on the
non-missing values `l`: with `n` values sorted ascending and `h = p * (n-1)`,
the result interpolates between the entries at positions `floor h` and
`floor h + 1`.  Empty input gives NaN (`none`). -/
def quantileLinear (l : List Rat) (p : Rat) : Option Rat :=
  if l.isEmpty then none
  else
    let s := l.insertionSort (· ≤ ·)
    let h : Rat := p * ((l.length : Rat) - 1)
    let lo : Nat := (⌊h⌋).toNat
    let hi : Nat := min (lo + 1) (l.length - 1)
    some (s.getD lo 0 + (h - (lo : Rat)) * (s.getD hi 0 - s.getD lo 0))

/-- Pandas `DataFrame.drop_duplicates` (line 48 of the source): keep the first
occurrence of every row, comparing all columns, with missing cells equal to
each other.  `seen` accumulates the rows already kept. -/
def dropDupAux (seen : List Row) : List Row → List Row
  | [] => []
  | x :: xs => if x ∈ seen then dropDupAux seen xs else x :: dropDupAux (x :: seen) xs

/-- Entry point of `drop_duplicates`. -/
def dropDuplicates (l : List Row) : List Row :=
  dropDupAux [] l

/-- The batches kept by the comprehension at line 34 of the source: actual
DataFrames that are not empty. -/
def isValidBatch : Batch → Bool
  | .invalid => false
  | .frame f => !f.rows.isEmpty

/-- The frame payload of a batch kept by line 34, `none` otherwise. -/
def batchFrame : Batch → Option Frame
  | .invalid => none
  | .frame f => if f.rows.isEmpty then none else some f

/-- Lines 23-75 of the source (`ingest_data`).  The two `ValueError` checks of
lines 30-36 and the concatenation of line 38 are modelled directly; column
alignment of `pd.concat` is automatic because missing cells are `none`.  When
`validate` is true, the cleaning steps of lines 45-54 run (their results are
bound and discarded below, mirroring the source order) and then line 60
raises: the f-string formats `bad_percentage` with the invalid format
specifier `.2f` followed by a space, so `ValueError` is raised on every input
that reaches it, and lines 63-73 are unreachable.  When `validate` is false
the concatenated frame is returned as is (timestamps are already in coerced
form in the model). -/
def ingest_data (data_batches : List Batch) (validate : Bool) : Except PyErr Frame :=
  if data_batches.isEmpty then .error .valueError
  else
    let valid := data_batches.filterMap batchFrame
    if valid.isEmpty then .error .valueError
    else
      let df : Frame :=
        { hasOutlier := valid.any (·.hasOutlier)
          hasAnomaly := valid.any (·.hasAnomaly)
          rows := valid.flatMap (·.rows) }
      if validate then
        let dfTs := df.rows.filter (·.timestamp.isSome)
        let dfDedup := dropDuplicates dfTs
        let dfVal := dfDedup.filter (·.value.isSome)
        let _dfQual := dfVal.map (fun r =>
          { r with quality := some ((r.quality.map String.toUpper).getD "UNCERTAIN") })
        .error .valueError
      else .ok df

/-- The per-row result of the three scoring branches of `detect_anomalies`
(lines 109-140 of the source) on the rows of the analysed sensor.  A score of
`none` is a float NaN.  In the rolling branch a zero rolling std makes Python
produce an infinite or NaN score; no claim concerns those scores and the model
records them as `none` (see the module docstring). -/
def scoreRows (sq : Rat → Rat) (sensorRows : List Row) (method : String)
    (threshold : Rat) : List Row :=
  let valid := validValues sensorRows
  if method = "zscore" then
    let m := listMean valid
    let std := sq (sampleVar valid)
    if std = 0 then
      sensorRows.map (fun r =>
        { r with anomaly_score := some 0, is_anomaly := some false,
                 detection_method := some method })
    else
      sensorRows.map (fun r =>
        let score := r.value.map (fun v => (v - m) / std)
        { r with anomaly_score := score,
                 is_anomaly := some (score.elim false (fun s => decide (|s| > threshold))),
                 detection_method := some method })
  else if method = "iqr" then
    let q1 := (quantileLinear valid (1 / 4)).getD 0
    let q3 := (quantileLinear valid (3 / 4)).getD 0
    let iqr := q3 - q1
    if iqr = 0 then
      sensorRows.map (fun r =>
        { r with anomaly_score := some 0, is_anomaly := some false,
                 detection_method := some method })
    else
      sensorRows.map (fun r =>
        { r with anomaly_score := r.value.map (fun v => |(v - q3) / iqr|),
                 is_anomaly := some (r.value.elim false (fun v =>
                   decide (v < q1 - threshold * iqr) || decide (v > q3 + threshold * iqr))),
                 detection_method := some method })
  else
    sensorRows.enum.map (fun p =>
      let i := p.1
      let r := p.2
      let w := (((sensorRows.map (·.value)).take (i + 1)).drop (i + 1 - 10)).filterMap id
      if w.length < 2 then
        { r with anomaly_score := none, is_anomaly := some false,
                 detection_method := some method }
      else
        let rm := listMean w
        let rs := sq (sampleVar w)
        let score := r.value.bind (fun v => if rs = 0 then none else some ((v - rm) / rs))
        { r with anomaly_score := score,
                 is_anomaly := some (score.elim false (fun s => decide (|s| > threshold))),
                 detection_method := some method })

/-- The left merge of lines 142-146 of the source, for one left row `L`:
every scored row whose `(timestamp, sensor)` key equals that of `L`
contributes one output row carrying the three anomaly columns of the scored
row; an unmatched left row contributes itself once with the three columns
missing.  Pandas preserves left order and, within one left row, right order,
and matches missing keys to missing keys. -/
def mergeScored (scored : List Row) (L : Row) : List Row :=
  let ms := scored.filter (fun R => R.timestamp == L.timestamp && R.sensor == L.sensor)
  if ms.isEmpty then
    [{ L with is_anomaly := none, anomaly_score := none, detection_method := none }]
  else
    ms.map (fun R =>
      { L with is_anomaly := R.is_anomaly, anomaly_score := R.anomaly_score,
               detection_method := R.detection_method })

/-- Lines 147-149 of the source: `fillna(False)`, `fillna(0.0)` and
`fillna("none")` on the three merged columns, applied per row. -/
def fillAnomDefaults (r : Row) : Row :=
  { r with is_anomaly := some (r.is_anomaly.getD false),
           anomaly_score := some (r.anomaly_score.getD 0),
           detection_method := some (r.detection_method.getD "none") }

/-- Line 99 of the source: the subset of rows belonging to the analysed
sensor (a missing sensor cell never equals a sensor name, matching pandas,
where NaN compares unequal to any string). -/
def sensor_df (data : Frame) (sensor_name : String) : List Row :=
  data.rows.filter (fun r => r.sensor == some sensor_name)

/-- Lines 83-151 of the source (`detect_anomalies`), parametrised by the float
square root `sq` (see the module docstring).  The checks mirror lines 91-107
in order; the third `ValueError` check (line 106) is unreachable because at
least two values for the sensor exist.  If the input frame already carries the
three anomaly columns, the merge of lines 142-146 suffixes the overlapping
column names, and line 147 raises a KeyError; otherwise the merged frame with
the filled defaults is returned. -/
def detect_anomalies (sq : Rat → Rat) (data : Frame) (sensor_name : String)
    (method : String) (threshold : Rat) : Except PyErr Frame :=
  if !(data.rows.any (fun r => r.sensor == some sensor_name)) then .error .valueError
  else if !(["zscore", "iqr", "rolling"].contains method) then .error .valueError
  else
    let sdf := sensor_df data sensor_name
    if (validValues sdf).length < 2 then .error .valueError
    else if sdf.isEmpty then .error .valueError
    else
      let scored := scoreRows sq sdf method threshold
      if data.hasAnomaly then .error .keyError
      else
        .ok { hasOutlier := data.hasOutlier
              hasAnomaly := true
              rows := (data.rows.flatMap (mergeScored scored)).map fillAnomDefaults }

/-- The nested summary mapping promised by the docstring of
`summarize_metrics`: group key to metric name to value. -/
def Summary : Type :=
  List (String × List (String × Rat))

/-- Lines 199-261 of the source (`summarize_metrics`).  The body of the
function is the docstring followed by `raise NotImplementedError(...)`
(lines 258-261): every call raises, whatever the arguments. -/
def summarize_metrics (_data : Frame) (_group_by : Option String)
    (_time_window : Option String) : Except PyErr Summary :=
  .error .notImplementedError

/-- A concrete stand-in for the float square root, used to instantiate `sq`
in closed statements; the theorems that mention it use only scoring branches
whose output does not depend on the choice (the iqr branch never evaluates
`sq`, and in the zscore branch only `sq 0 = 0` matters). -/
def sqrtZero : Rat → Rat :=
  fun _ => 0

/-- Row constructor for the four caller-supplied columns. -/
def mkRow (t : Option Int) (s : Option String) (v : Option Rat) (q : Option String) : Row :=
  { timestamp := t, sensor := s, value := v, quality := q }

/-- A one-sensor two-row dataset, used against `summarize_metrics`. -/
def oneSensorFrame : Frame :=
  { rows := [mkRow (some 1) (some "temp") (some 20) (some "GOOD"),
             mkRow (some 2) (some "temp") (some 21) (some "GOOD")] }

/-- A dataset paired with a group-by column name that none of its columns
bears, used against `summarize_metrics`. -/
def badGroupFrame : Frame :=
  { rows := [mkRow (some 1) (some "temp") (some 20) (some "GOOD")] }

/-- A single well-formed batch of two GOOD rows. -/
def goodBatch : Frame :=
  { rows := [mkRow (some 1) (some "temp") (some 20) (some "GOOD"),
             mkRow (some 2) (some "temp") (some 21) (some "GOOD")] }

/-- A single well-formed one-row batch (distinct input for the idempotence
claim). -/
def oneRowBatch : Frame :=
  { rows := [mkRow (some 3) (some "temp") (some 22) (some "GOOD")] }

/-- A batch whose only row has an unparseable timestamp: with `validate=True`
every row would be dropped at the first cleaning step. -/
def allDroppedBatch : Frame :=
  { rows := [mkRow none (some "temp") (some 20) (some "GOOD")] }

/-- A batch that lacks the `quality` column: after `pd.concat` column
alignment its rows carry missing quality cells. -/
def noQualityBatch : Frame :=
  { rows := [mkRow (some 2) (some "hum") (some 30) none] }

/-- A dataset that already carries the three anomaly columns, as produced by
a previous successful `detect_anomalies` call. -/
def annotatedFrame : Frame :=
  { hasAnomaly := true
    rows := [{ timestamp := some 1, sensor := some "s", value := some 1,
               quality := some "GOOD", is_anomaly := some false,
               anomaly_score := some 0, detection_method := some "zscore" },
             { timestamp := some 2, sensor := some "s", value := some 2,
               quality := some "GOOD", is_anomaly := some false,
               anomaly_score := some 0, detection_method := some "zscore" }]}

end DataProcessing

namespace DataProcessing

/-- C1: the claim says `summarize_metrics` on a one-sensor N-row dataset
returns one group whose count is N.  The source never returns: lines 258-261
raise `NotImplementedError` for every input, contradicting the docstring of
the function (lines 220-236), so the call on the concrete one-sensor two-row
dataset yields the NotImplementedError outcome instead of a summary. -/
theorem C1_summarize_unimplemented :
    summarize_metrics oneSensorFrame (some "sensor") none = .error .notImplementedError :=
  rfl

/-- C2: the claim says `summarize_metrics` raises ValueError when the
group-by column does not exist.  The source raises `NotImplementedError`
(lines 258-261) for every input, including this one, contradicting the
Raises section of its own docstring (lines 239-241). -/
theorem C2_summarize_wrong_error :
    summarize_metrics badGroupFrame (some "nope") none = .error .notImplementedError :=
  rfl

/-- C4: the claim says `ingest_data` with `validate=True` returns a cleaned
dataset satisfying the post-ingestion invariants.  On a perfectly valid
batch collection the call instead raises ValueError: line 60 formats the BAD
percentage with the invalid format specifier `.2f` followed by a space, so no
dataset is ever returned from the validate path. -/
theorem C4_ingest_always_raises :
    ingest_data [Batch.frame goodBatch] true = .error .valueError :=
  rfl

/-- C7: the claim speaks about re-running `ingest_data` on its own cleaned
output.  No cleaned output exists: every `validate=True` call raises
ValueError at the line-60 format specifier, as this evaluation on a valid
one-row batch shows, so the idempotence property has no instances. -/
theorem C7_no_cleaned_output :
    ingest_data [Batch.frame oneRowBatch] true = .error .valueError :=
  rfl

/-- C8: the claim says that when every row is dropped during cleaning the
call returns an empty dataset and the degenerate BAD-percentage computation
does not fail.  On a batch whose only row has a missing timestamp (so that
all rows are dropped at the first cleaning step) the call raises ValueError:
the invalid line-60 format specifier fails before the empty dataset could be
returned. -/
theorem C8_degenerate_raises :
    ingest_data [Batch.frame allDroppedBatch] true = .error .valueError :=
  rfl

/-- C5 counterexample: the claim says that when the input already contains
the three anomaly columns they are overwritten.  Instead the call fails: the
merge suffixes the overlapping column names and line 147 raises KeyError, as
this run on the output of a previous `detect_anomalies` call shows. -/
theorem C5_counterexample :
    detect_anomalies sqrtZero annotatedFrame "s" "zscore" 3 = .error .keyError :=
  rfl

/-- C6 counterexample: the claim says batches missing required columns such
as `quality` are filtered out and the remaining batches are processed rather
than the whole call failing.  Both halves fail on the code: with the default
`validate=True` the whole call raises ValueError (the line-60 format
specifier), and with `validate=False` the rows of the quality-less batch are
kept (its sensor appears in the output), not filtered out. -/
theorem C6_counterexample :
    ingest_data [Batch.frame goodBatch, Batch.frame noQualityBatch] true
        = .error .valueError ∧
    (ingest_data [Batch.frame goodBatch, Batch.frame noQualityBatch] false).map
        (fun f => f.rows.any (fun r => r.sensor == some "hum")) = .ok true := by
  constructor
  · rfl
  · rfl

/-! Helper lemmas about the pieces of `detect_anomalies`. -/

theorem base_fillAnomDefaults (r : Row) : base (fillAnomDefaults r) = base r :=
  rfl

theorem mergeScored_ne_nil (scored : List Row) (L : Row) : mergeScored scored L ≠ [] := by
  unfold mergeScored
  by_cases h :
      (scored.filter (fun R => R.timestamp == L.timestamp && R.sensor == L.sensor)).isEmpty
  · simp [h]
  · rw [if_neg (by simp [h])]
    rw [Bool.not_eq_true, List.isEmpty_eq_false] at h
    simp [h]

theorem mem_mergeScored {scored : List Row} {L m : Row} (hm : m ∈ mergeScored scored L) :
    base m = base L ∧
      ((m.is_anomaly = none ∧ m.anomaly_score = none ∧ m.detection_method = none ∧
          ∀ R ∈ scored, ¬(R.timestamp = L.timestamp ∧ R.sensor = L.sensor)) ∨
        ∃ R ∈ scored, (R.timestamp = L.timestamp ∧ R.sensor = L.sensor) ∧
          m.is_anomaly = R.is_anomaly ∧ m.anomaly_score = R.anomaly_score ∧
          m.detection_method = R.detection_method) := by
  unfold mergeScored at hm
  by_cases h :
      (scored.filter (fun R => R.timestamp == L.timestamp && R.sensor == L.sensor)).isEmpty
  · rw [if_pos h] at hm
    rw [List.isEmpty_iff] at h
    rw [List.mem_singleton] at hm
    subst hm
    refine ⟨rfl, .inl ⟨rfl, rfl, rfl, ?_⟩⟩
    intro R hR hkey
    have hmem : R ∈ scored.filter
        (fun R => R.timestamp == L.timestamp && R.sensor == L.sensor) := by
      rw [List.mem_filter]
      exact ⟨hR, by simp [hkey.1, hkey.2]⟩
    rw [h] at hmem
    exact absurd hmem (List.not_mem_nil R)
  · rw [if_neg (by simp [h])] at hm
    obtain ⟨R, hR, rfl⟩ := List.mem_map.mp hm
    have hR2 := List.mem_filter.mp hR
    have hkey : R.timestamp = L.timestamp ∧ R.sensor = L.sensor := by
      have := hR2.2
      simpa using this
    exact ⟨rfl, .inr ⟨R, hR2.1, hkey, rfl, rfl, rfl⟩⟩

theorem map_map_base_of_base_eq {rows : List Row} {F : Row → Row}
    (hF : ∀ r, base (F r) = base r) :
    (rows.map F).map base = rows.map base := by
  rw [List.map_map]
  exact List.map_congr_left (fun r _ => hF r)

theorem enum_map_base_of_base_eq {rows : List Row} {G : Nat × Row → Row}
    (hG : ∀ p, base (G p) = base p.2) :
    (rows.enum.map G).map base = rows.map base := by
  rw [List.map_map]
  have h1 : rows.enum.map (base ∘ G) = rows.enum.map (fun p => base p.2) :=
    List.map_congr_left (fun p _ => hG p)
  rw [h1]
  have h2 : rows.enum.map (fun p => base p.2) = (rows.enum.map Prod.snd).map base := by
    rw [List.map_map]
    rfl
  rw [h2, List.enum_map_snd]

theorem scoreRows_map_base (sq : Rat → Rat) (rows : List Row) (method : String)
    (t : Rat) : (scoreRows sq rows method t).map base = rows.map base := by
  simp only [scoreRows]
  split
  · split
    · exact map_map_base_of_base_eq (fun r => rfl)
    · exact map_map_base_of_base_eq (fun r => rfl)
  · split
    · split
      · exact map_map_base_of_base_eq (fun r => rfl)
      · exact map_map_base_of_base_eq (fun r => rfl)
    · exact enum_map_base_of_base_eq (fun p => by split <;> rfl)

theorem scoreRows_length (sq : Rat → Rat) (rows : List Row) (method : String)
    (t : Rat) : (scoreRows sq rows method t).length = rows.length := by
  have h := congrArg List.length (scoreRows_map_base sq rows method t)
  simpa using h

theorem scoreRows_map_key (sq : Rat → Rat) (rows : List Row) (method : String)
    (t : Rat) : (scoreRows sq rows method t).map key = rows.map key := by
  have h := scoreRows_map_base sq rows method t
  have h2 := congrArg (List.map (fun b :
      Option Int × Option String × Option Rat × Option String × Option Bool =>
      (b.1, b.2.1))) h
  rw [List.map_map, List.map_map] at h2
  exact h2

theorem filter_key_eq (scored : List Row) (L : Row) :
    scored.filter (fun R => R.timestamp == L.timestamp && R.sensor == L.sensor) =
      scored.filter (fun R => decide (key R = key L)) := by
  apply List.filter_congr
  intro R _
  by_cases h1 : R.timestamp = L.timestamp <;> by_cases h2 : R.sensor = L.sensor <;>
    simp [key, h1, h2, Prod.ext_iff]

theorem length_filter_key_le_one {l : List Row} (hnd : (l.map key).Nodup)
    (k : Option Int × Option String) :
    (l.filter (fun R => decide (key R = k))).length ≤ 1 := by
  induction l with
  | nil => simp
  | cons x xs ih =>
    rw [List.map_cons, List.nodup_cons] at hnd
    by_cases hx : key x = k
    · have hempty : xs.filter (fun R => decide (key R = k)) = [] := by
        rw [List.filter_eq_nil_iff]
        intro a ha
        simp only [decide_eq_true_eq]
        intro hak
        exact hnd.1 (by rw [hx, ← hak]; exact List.mem_map_of_mem key ha)
      simp [List.filter_cons, hx, hempty]
    · simp only [List.filter_cons, decide_eq_true_eq, hx, if_false]
      exact ih hnd.2

theorem mergeScored_length_eq_one {scored : List Row} {L : Row}
    (h : (scored.filter (fun R => R.timestamp == L.timestamp && R.sensor == L.sensor)).length
          ≤ 1) :
    (mergeScored scored L).length = 1 := by
  unfold mergeScored
  by_cases he :
      (scored.filter (fun R => R.timestamp == L.timestamp && R.sensor == L.sensor)).isEmpty
  · simp [he]
  · rw [if_neg (by simp [he]), List.length_map]
    rw [Bool.not_eq_true, List.isEmpty_eq_false] at he
    have h1 : 0 <
        (scored.filter (fun R => R.timestamp == L.timestamp && R.sensor == L.sensor)).length :=
      List.length_pos.mpr he
    omega

theorem flatMap_length_of_forall_one {α : Type} (l : List α) (f : α → List Row)
    (h : ∀ a ∈ l, (f a).length = 1) : (l.flatMap f).length = l.length := by
  induction l with
  | nil => rfl
  | cons x xs ih =>
    rw [List.flatMap_cons, List.length_append, h x (List.mem_cons_self x xs),
      ih (fun a ha => h a (List.mem_cons_of_mem x ha)), List.length_cons]
    omega

theorem sensor_df_ne_nil {data : Frame} {sensor_name : String}
    (h : 2 ≤ (validValues (sensor_df data sensor_name)).length) :
    sensor_df data sensor_name ≠ [] := by
  intro hnil
  rw [hnil] at h
  simp [validValues] at h

/-- Success characterisation of `detect_anomalies`: the call returns a frame
exactly when the sensor occurs, the method is supported, the sensor has at
least two non-missing values and the input does not already carry the anomaly
columns; the output frame is the merged and filled one. -/
theorem detect_ok_iff (sq : Rat → Rat) (data : Frame) (sensor_name method : String)
    (threshold : Rat) (res : Frame) :
    detect_anomalies sq data sensor_name method threshold = .ok res ↔
      data.rows.any (fun r => r.sensor == some sensor_name) = true ∧
      (["zscore", "iqr", "rolling"].contains method) = true ∧
      2 ≤ (validValues (sensor_df data sensor_name)).length ∧
      data.hasAnomaly = false ∧
      res = { hasOutlier := data.hasOutlier
              hasAnomaly := true
              rows := ((data.rows.flatMap
                (mergeScored (scoreRows sq (sensor_df data sensor_name) method threshold))).map
                  fillAnomDefaults) } := by
  unfold detect_anomalies
  by_cases h1 : data.rows.any (fun r => r.sensor == some sensor_name)
  · rw [if_neg (by simp [h1])]
    by_cases h2 : (["zscore", "iqr", "rolling"].contains method) = true
    · rw [if_neg (by simp only [h2]; simp)]
      by_cases h3 : (validValues (sensor_df data sensor_name)).length < 2
      · rw [if_pos h3]
        simp only [h1, h2, true_and]
        constructor
        · intro hcon
          exact absurd hcon (by simp)
        · intro hcon
          omega
      · rw [if_neg h3]
        have hne : (sensor_df data sensor_name).isEmpty = false := by
          rw [List.isEmpty_eq_false]
          exact sensor_df_ne_nil (by omega)
        rw [if_neg (by simp [hne])]
        by_cases h4 : data.hasAnomaly
        · rw [if_pos h4]
          constructor
          · intro hcon
            exact absurd hcon (by simp)
          · intro hcon
            rw [hcon.2.2.2.1] at h4
            exact absurd h4 (by simp)
        · rw [if_neg h4]
          have h4f : data.hasAnomaly = false := by simpa using h4
          simp only [h1, h2, h4f, true_and, Except.ok.injEq]
          constructor
          · intro hcon
            exact ⟨by omega, hcon.symm⟩
          · intro hcon
            exact hcon.2.symm
    · rw [if_pos (by rw [Bool.not_eq_true] at h2; rw [h2]; rfl)]
      constructor
      · intro hcon
        exact absurd hcon (by simp)
      · intro hcon
        exact absurd hcon.2.1 h2
  · rw [if_pos (by simp [h1])]
    simp only [h1, false_and]
    constructor
    · intro hcon
      exact absurd hcon (by simp)
    · intro hcon
      exact absurd hcon.1 (by simp [h1])

/-! Projections out of `base` equality, and facts about constant value lists. -/

theorem base_timestamp_eq {r s : Row} (h : base r = base s) : r.timestamp = s.timestamp :=
  congrArg Prod.fst h

theorem base_sensor_eq {r s : Row} (h : base r = base s) : r.sensor = s.sensor :=
  congrArg (fun b :
    Option Int × Option String × Option Rat × Option String × Option Bool => b.2.1) h

theorem base_value_eq {r s : Row} (h : base r = base s) : r.value = s.value :=
  congrArg (fun b :
    Option Int × Option String × Option Rat × Option String × Option Bool => b.2.2.1) h

theorem listSum_of_const {l : List Rat} {c : Rat} (h : ∀ x ∈ l, x = c) :
    l.sum = l.length * c := by
  induction l with
  | nil => simp
  | cons x xs ih =>
    rw [List.sum_cons, ih (fun y hy => h y (List.mem_cons_of_mem x hy)),
      h x (List.mem_cons_self x xs), List.length_cons]
    push_cast
    ring

theorem listMean_of_const {l : List Rat} {c : Rat} (hne : l ≠ []) (h : ∀ x ∈ l, x = c) :
    listMean l = c := by
  unfold listMean
  rw [listSum_of_const h]
  have hl : (l.length : Rat) ≠ 0 := by
    have : l.length ≠ 0 := by
      intro hcon
      exact hne (List.length_eq_zero.mp hcon)
    exact_mod_cast this
  rw [mul_comm, mul_div_assoc, div_self hl, mul_one]

theorem sampleVar_of_allEq {l : List Rat} (h : ∀ v ∈ l, ∀ w ∈ l, v = w) :
    sampleVar l = 0 := by
  rcases l with _ | ⟨x, xs⟩
  · simp [sampleVar]
  · have hc : ∀ y ∈ (x :: xs), y = x := fun y hy => h y hy x (List.mem_cons_self x xs)
    have hmean : listMean (x :: xs) = x := listMean_of_const (by simp) hc
    unfold sampleVar
    have hz : ((x :: xs).map (fun v => (v - listMean (x :: xs)) ^ 2)).sum = 0 := by
      apply List.sum_eq_zero
      intro y hy
      rw [List.mem_map] at hy
      obtain ⟨v, hv, rfl⟩ := hy
      rw [hmean, hc v hv]
      ring
    rw [hz, zero_div]

/-! Branch characterisations of `scoreRows`. -/

theorem scoreRows_zscore_degenerate (sq : Rat → Rat) (rows : List Row) (t : Rat)
    (h : sq (sampleVar (validValues rows)) = 0) :
    scoreRows sq rows "zscore" t = rows.map (fun r =>
      { r with anomaly_score := some 0, is_anomaly := some false,
               detection_method := some "zscore" }) := by
  simp only [scoreRows, reduceIte]
  rw [if_pos h]

theorem scoreRows_eq_map_of_not_rolling (sq : Rat → Rat) (rows : List Row)
    (method : String) (t : Rat) (hm : method = "zscore" ∨ method = "iqr") :
    ∃ g : Row → Row, scoreRows sq rows method t = rows.map g ∧
      (∀ x, base (g x) = base x) ∧
      (∀ x, x.value = none → (g x).is_anomaly = some false ∧
        ((g x).anomaly_score = none ∨ (g x).anomaly_score = some 0) ∧
        (g x).detection_method = some method) := by
  rcases hm with hm | hm <;> subst hm <;> simp only [scoreRows, reduceIte]
  · by_cases h : sq (sampleVar (validValues rows)) = 0
    · rw [if_pos h]
      exact ⟨_, rfl, fun x => rfl, fun x hx => ⟨rfl, .inr rfl, rfl⟩⟩
    · rw [if_neg h]
      refine ⟨_, rfl, fun x => rfl, fun x hx => ?_⟩
      refine ⟨by simp [hx], .inl (by simp [hx]), rfl⟩
  · by_cases h : (quantileLinear (validValues rows) (3 / 4)).getD 0
        - (quantileLinear (validValues rows) (1 / 4)).getD 0 = 0
    · rw [if_pos h]
      exact ⟨_, rfl, fun x => rfl, fun x hx => ⟨rfl, .inr rfl, rfl⟩⟩
    · rw [if_neg h]
      refine ⟨_, rfl, fun x => rfl, fun x hx => ?_⟩
      refine ⟨by simp [hx], .inl (by simp [hx]), rfl⟩

/-! Concrete frames for the remaining closed statements. -/

/-- A dataset in which the analysed sensor has two rows with the same
timestamp, so that the `(timestamp, sensor)` merge key is duplicated. -/
def dupKeyFrame : Frame :=
  { rows := [mkRow (some 1) (some "s") (some 4) (some "GOOD"),
             mkRow (some 1) (some "s") (some 0) (some "GOOD"),
             mkRow (some 2) (some "s") (some 1) (some "GOOD"),
             mkRow (some 3) (some "s") (some 2) (some "GOOD"),
             mkRow (some 4) (some "s") (some 3) (some "GOOD")] }

/-- Like `dupKeyFrame` but with an additional missing-value row sharing the
duplicated key. -/
def dupKeyMissingFrame : Frame :=
  { rows := [mkRow (some 1) (some "s") none (some "GOOD"),
             mkRow (some 1) (some "s") (some 4) (some "GOOD"),
             mkRow (some 2) (some "s") (some 0) (some "GOOD"),
             mkRow (some 3) (some "s") (some 1) (some "GOOD"),
             mkRow (some 4) (some "s") (some 2) (some "GOOD"),
             mkRow (some 5) (some "s") (some 3) (some "GOOD")] }

/-- A two-row one-sensor dataset with distinct timestamps. -/
def wd3 : Frame :=
  { rows := [mkRow (some 1) (some "s") (some 1) (some "GOOD"),
             mkRow (some 2) (some "s") (some 2) (some "GOOD")] }

/-- The result of `detect_anomalies sqrtZero wd3 "s" "zscore" 3`. -/
def wres3 : Frame :=
  { hasAnomaly := true
    rows := [{ timestamp := some 1, sensor := some "s", value := some 1,
               quality := some "GOOD", is_anomaly := some false,
               anomaly_score := some 0, detection_method := some "zscore" },
             { timestamp := some 2, sensor := some "s", value := some 2,
               quality := some "GOOD", is_anomaly := some false,
               anomaly_score := some 0, detection_method := some "zscore" }] }

/-- A two-row dataset whose sensor values are all equal. -/
def constFrame : Frame :=
  { rows := [mkRow (some 1) (some "temp") (some 5) (some "GOOD"),
             mkRow (some 2) (some "temp") (some 5) (some "GOOD")] }

/-- A three-row one-sensor dataset with unique timestamps whose first row has
a missing value. -/
def wd10 : Frame :=
  { rows := [mkRow (some 1) (some "s") none (some "GOOD"),
             mkRow (some 2) (some "s") (some 1) (some "GOOD"),
             mkRow (some 3) (some "s") (some 2) (some "GOOD")] }

/-- The result of `detect_anomalies sqrtZero wd10 "s" "zscore" 3`. -/
def wres10 : Frame :=
  { hasAnomaly := true
    rows := [{ timestamp := some 1, sensor := some "s", value := none,
               quality := some "GOOD", is_anomaly := some false,
               anomaly_score := some 0, detection_method := some "zscore" },
             { timestamp := some 2, sensor := some "s", value := some 1,
               quality := some "GOOD", is_anomaly := some false,
               anomaly_score := some 0, detection_method := some "zscore" },
             { timestamp := some 3, sensor := some "s", value := some 2,
               quality := some "GOOD", is_anomaly := some false,
               anomaly_score := some 0, detection_method := some "zscore" }] }

/-- C3 counterexample: the claim says every successful `detect_anomalies`
call preserves the row count.  On a dataset in which the analysed sensor has
two rows with equal timestamps, the call succeeds (iqr method, five valid
values, nonzero IQR) but the left merge on `(timestamp, sensor)` matches each
of the two duplicated-key rows twice: the output has 7 rows for a 5-row
input. -/
theorem C3_counterexample :
    (detect_anomalies sqrtZero dupKeyFrame "s" "iqr" 3).map (fun f => f.rows.length)
        = .ok 7 ∧
      dupKeyFrame.rows.length = 5 := by
  constructor
  · have h1 : Int.toNat 1 = 1 := by decide
    have h3 : Int.toNat 3 = 3 := by decide
    norm_num +decide [detect_anomalies, sensor_df, validValues, scoreRows, mergeScored,
      fillAnomDefaults, quantileLinear, listMean, dupKeyFrame, mkRow, h1, h3,
      List.insertionSort, List.orderedInsert, List.filter_cons, List.filterMap_cons,
      List.flatMap_cons, List.getD_eq_getElem?_getD, Except.map,
      List.getElem?_cons_zero, List.getElem?_cons_succ, Option.getD_some, Option.getD_none]
  · rfl

/-- C3 (amended): a successful `detect_anomalies` call preserves the row
count provided the `(timestamp, sensor)` merge key is unique among the rows
of the analysed sensor (every other row matches nothing and is kept once with
default anomaly columns). -/
theorem C3_row_count (sq : Rat → Rat) (d : Frame) (name method : String) (t : Rat)
    (res : Frame) (hok : detect_anomalies sq d name method t = .ok res)
    (huniq : ((sensor_df d name).map (·.timestamp)).Nodup) :
    res.rows.length = d.rows.length := by
  rw [detect_ok_iff] at hok
  obtain ⟨h1, h2, h3, h4, rfl⟩ := hok
  dsimp only
  rw [List.length_map]
  apply flatMap_length_of_forall_one
  intro L hL
  apply mergeScored_length_eq_one
  rw [filter_key_eq]
  apply length_filter_key_le_one
  rw [scoreRows_map_key]
  have hmk : (sensor_df d name).map (·.timestamp)
      = ((sensor_df d name).map key).map Prod.fst := by
    rw [List.map_map]
    rfl
  rw [hmk] at huniq
  exact huniq.of_map

/-- C3 witness: the amended row-count theorem applied to a concrete
two-row dataset with unique timestamps. -/
theorem C3_row_count_witness :
    detect_anomalies sqrtZero wd3 "s" "zscore" 3 = .ok wres3 ∧
      wres3.rows.length = wd3.rows.length :=
  ⟨by rfl, C3_row_count sqrtZero wd3 "s" "zscore" 3 wres3 (by rfl) (by decide)⟩

/-- C5 (amended): when its input does not already carry the three anomaly
columns, `detect_anomalies` leaves all other columns intact: the output frame
keeps the outlier-column flag, gains the anomaly columns, and every output
row agrees with some input row on all pre-existing columns (and conversely
every input row is represented).  The input frame itself is a pure value in
this model, matching the observable absence of mutation (line 99 of the
source copies before writing).  When the input does carry the three columns
the call raises KeyError instead of overwriting them (see the
counterexample). -/
theorem C5_no_mutation (sq : Rat → Rat) (d : Frame) (name method : String) (t : Rat)
    (res : Frame) (hok : detect_anomalies sq d name method t = .ok res) :
    res.hasOutlier = d.hasOutlier ∧ res.hasAnomaly = true ∧
      (∀ m ∈ res.rows, ∃ L ∈ d.rows, base m = base L) ∧
      (∀ L ∈ d.rows, ∃ m ∈ res.rows, base m = base L) := by
  rw [detect_ok_iff] at hok
  obtain ⟨h1, h2, h3, h4, rfl⟩ := hok
  refine ⟨rfl, rfl, ?_, ?_⟩
  · intro m hm
    rw [List.mem_map] at hm
    obtain ⟨m0, hm0, rfl⟩ := hm
    rw [List.mem_flatMap] at hm0
    obtain ⟨L, hL, hm0⟩ := hm0
    exact ⟨L, hL, by  rw [base_fillAnomDefaults]; exact (mem_mergeScored hm0).1⟩
  · intro L hL
    obtain ⟨m0, hm0⟩ := List.exists_mem_of_ne_nil _
      (mergeScored_ne_nil (scoreRows sq (sensor_df d name) method t) L)
    refine ⟨fillAnomDefaults m0, ?_, ?_⟩
    · exact List.mem_map_of_mem _ (List.mem_flatMap.mpr ⟨L, hL, hm0⟩)
    · rw [base_fillAnomDefaults]
      exact (mem_mergeScored hm0).1

/-- C5 witness: the amended column-preservation theorem applied to a concrete
two-row dataset. -/
theorem C5_no_mutation_witness :
    detect_anomalies sqrtZero wd3 "s" "zscore" 3 = .ok wres3 ∧
      (∀ m ∈ wres3.rows, ∃ L ∈ wd3.rows, base m = base L) :=
  ⟨by rfl, (C5_no_mutation sqrtZero wd3 "s" "zscore" 3 wres3 (by rfl)).2.2.1⟩

/-- C9: on a sensor whose non-missing values are all equal (and at least two
of them exist), the zscore method takes the zero-std branch: the call
succeeds on an anomaly-column-free frame and every row of that sensor comes
back with `is_anomaly = false` and `anomaly_score = 0.0`, with no
division-by-zero failure.  `sq` is any function with `sq 0 = 0`, which the
float square root satisfies. -/
theorem C9_zscore_constant (sq : Rat → Rat) (d : Frame) (name : String) (t : Rat)
    (hsq : sq 0 = 0) (hA : d.hasAnomaly = false)
    (hconst : ∀ v ∈ validValues (sensor_df d name),
      ∀ w ∈ validValues (sensor_df d name), v = w)
    (hlen : 2 ≤ (validValues (sensor_df d name)).length) :
    ∃ res, detect_anomalies sq d name "zscore" t = .ok res ∧
      ∀ m ∈ res.rows, m.sensor = some name →
        m.is_anomaly = some false ∧ m.anomaly_score = some 0 := by
  have hvar : sampleVar (validValues (sensor_df d name)) = 0 := sampleVar_of_allEq hconst
  have hstd : sq (sampleVar (validValues (sensor_df d name))) = 0 := by rw [hvar, hsq]
  have hany : d.rows.any (fun r => r.sensor == some name) = true := by
    obtain ⟨r, hr⟩ := List.exists_mem_of_ne_nil _ (sensor_df_ne_nil hlen)
    have hr2 := List.mem_filter.mp hr
    exact List.any_eq_true.mpr ⟨r, hr2.1, hr2.2⟩
  refine ⟨_, (detect_ok_iff sq d name "zscore" t _).mpr
    ⟨hany, by decide, hlen, hA, rfl⟩, ?_⟩
  intro m hm _
  rw [List.mem_map] at hm
  obtain ⟨m0, hm0, rfl⟩ := hm
  rw [List.mem_flatMap] at hm0
  obtain ⟨L, hL, hm0⟩ := hm0
  have hsc : ∀ R ∈ scoreRows sq (sensor_df d name) "zscore" t,
      R.is_anomaly = some false ∧ R.anomaly_score = some 0 := by
    intro R hR
    rw [scoreRows_zscore_degenerate sq (sensor_df d name) t hstd] at hR
    rw [List.mem_map] at hR
    obtain ⟨x, _, rfl⟩ := hR
    exact ⟨rfl, rfl⟩
  rcases (mem_mergeScored hm0).2 with ⟨ha, hs, _, _⟩ | ⟨R, hR, _, ha, hs, _⟩
  · constructor
    · show some ((Option.getD m0.is_anomaly false)) = some false
      rw [ha]
      rfl
    · show some ((Option.getD m0.anomaly_score 0)) = some 0
      rw [hs]
      rfl
  · have hRp := hsc R hR
    constructor
    · show some ((Option.getD m0.is_anomaly false)) = some false
      rw [ha, hRp.1]
      rfl
    · show some ((Option.getD m0.anomaly_score 0)) = some 0
      rw [hs, hRp.2]
      rfl

/-- C9 witness: the constant-sensor zscore theorem applied to a concrete
two-row constant dataset. -/
theorem C9_zscore_constant_witness :
    (2 ≤ (validValues (sensor_df constFrame "temp")).length) ∧
      (∃ res, detect_anomalies sqrtZero constFrame "temp" "zscore" 3 = .ok res ∧
        ∀ m ∈ res.rows, m.sensor = some "temp" →
          m.is_anomaly = some false ∧ m.anomaly_score = some 0) :=
  ⟨by decide, C9_zscore_constant sqrtZero constFrame "temp" 3 rfl rfl
    (by decide) (by decide)⟩

/-- C10 counterexample: the claim says every missing-value row of the
analysed sensor receives score 0.0 and flag false.  With a duplicated
`(timestamp, sensor)` key the missing-value row also matches the scored row
of its key twin, whose iqr score is 1/2, so one output row has a missing
value and a nonzero anomaly score. -/
theorem C10_counterexample :
    (detect_anomalies sqrtZero dupKeyMissingFrame "s" "iqr" 3).map
        (fun f => (f.rows.filter (fun r => r.sensor == some "s" && r.value == none
          && !(r.anomaly_score == some 0))).length) = .ok 1 := by
  have h1 : Int.toNat 1 = 1 := by decide
  have h3 : Int.toNat 3 = 3 := by decide
  norm_num +decide [detect_anomalies, sensor_df, validValues, scoreRows, mergeScored,
    fillAnomDefaults, quantileLinear, listMean, dupKeyMissingFrame, mkRow, h1, h3,
    List.insertionSort, List.orderedInsert, List.filter_cons, List.filterMap_cons,
    List.flatMap_cons, List.getD_eq_getElem?_getD, Except.map,
    List.getElem?_cons_zero, List.getElem?_cons_succ, Option.getD_some, Option.getD_none]

/-- C10 (amended): in a successful zscore or iqr call on a dataset in which
the `(timestamp, sensor)` key is unique among the analysed sensor rows,
every row of that sensor with a missing value comes back with
`is_anomaly = false`, `anomaly_score = 0.0` and `detection_method` equal to
the chosen method (missing values are excluded from the statistics by the
`dropna` at line 102 of the source). -/
theorem C10_missing_value (sq : Rat → Rat) (d : Frame) (name method : String)
    (t : Rat) (res : Frame) (hok : detect_anomalies sq d name method t = .ok res)
    (hm : method = "zscore" ∨ method = "iqr")
    (huniq : ((sensor_df d name).map (·.timestamp)).Nodup) :
    ∀ m ∈ res.rows, m.sensor = some name → m.value = none →
      m.is_anomaly = some false ∧ m.anomaly_score = some 0 ∧
        m.detection_method = some method := by
  rw [detect_ok_iff] at hok
  obtain ⟨h1, h2, h3, h4, rfl⟩ := hok
  obtain ⟨g, hg, hgbase, hgnone⟩ :=
    scoreRows_eq_map_of_not_rolling sq (sensor_df d name) method t hm
  intro m hmem hms hmv
  rw [List.mem_map] at hmem
  obtain ⟨m0, hm0, rfl⟩ := hmem
  rw [List.mem_flatMap] at hm0
  obtain ⟨L, hL, hm0⟩ := hm0
  obtain ⟨hbase, hdis⟩ := mem_mergeScored hm0
  have hbase2 : base (fillAnomDefaults m0) = base L := by
    rw [base_fillAnomDefaults]
    exact hbase
  have hLs : L.sensor = some name := by
    rw [← base_sensor_eq hbase2]
    exact hms
  have hLv : L.value = none := by
    rw [← base_value_eq hbase2]
    exact hmv
  have hLmem : L ∈ sensor_df d name := by
    rw [sensor_df, List.mem_filter]
    exact ⟨hL, by simp [hLs]⟩
  rcases hdis with ⟨_, _, _, hnomatch⟩ | ⟨R, hR, hkeyR, ha, hs, hdm⟩
  · exfalso
    have hgL : g L ∈ scoreRows sq (sensor_df d name) method t := by
      rw [hg]
      exact List.mem_map_of_mem g hLmem
    exact hnomatch (g L) hgL
      ⟨base_timestamp_eq (hgbase L), base_sensor_eq (hgbase L)⟩
  · rw [hg, List.mem_map] at hR
    obtain ⟨x, hx, rfl⟩ := hR
    have hxts : x.timestamp = L.timestamp := by
      rw [← base_timestamp_eq (hgbase x)]
      exact hkeyR.1
    have hxL : x = L := List.inj_on_of_nodup_map huniq hx hLmem hxts
    subst hxL
    obtain ⟨hga, hgs, hgm⟩ := hgnone x hLv
    refine ⟨?_, ?_, ?_⟩
    · show some ((Option.getD m0.is_anomaly false)) = some false
      rw [ha, hga]
      rfl
    · show some ((Option.getD m0.anomaly_score 0)) = some 0
      rcases hgs with hgs | hgs
      · rw [hs, hgs]
        rfl
      · rw [hs, hgs]
        rfl
    · show some ((Option.getD m0.detection_method "none")) = some method
      rw [hdm, hgm]
      rfl

/-- C10 witness: the amended missing-value theorem applied to a concrete
three-row dataset with unique timestamps and one missing value. -/
theorem C10_missing_value_witness :
    detect_anomalies sqrtZero wd10 "s" "zscore" 3 = .ok wres10 ∧
      (∀ m ∈ wres10.rows, m.sensor = some "s" → m.value = none →
        m.is_anomaly = some false ∧ m.anomaly_score = some 0 ∧
          m.detection_method = some "zscore") :=
  ⟨by rfl, C10_missing_value sqrtZero wd10 "s" "zscore" 3 wres10 (by rfl)
    (Or.inl rfl) (by decide)⟩

/-! The amended batch-filtering statement for C6. -/

theorem batchFrame_eq_none_iff (b : Batch) : batchFrame b = none ↔ isValidBatch b = false := by
  cases b with
  | invalid => simp [batchFrame, isValidBatch]
  | frame f =>
    by_cases h : f.rows.isEmpty <;> simp [batchFrame, isValidBatch, h]

theorem filterMap_batchFrame_filter (batches : List Batch) :
    (batches.filter isValidBatch).filterMap batchFrame = batches.filterMap batchFrame := by
  induction batches with
  | nil => rfl
  | cons b bs ih =>
    by_cases h : isValidBatch b
    · rw [List.filter_cons_of_pos h]
      cases hfb : batchFrame b <;> simp [List.filterMap_cons, hfb, ih]
    · have hb : batchFrame b = none := (batchFrame_eq_none_iff b).mpr (by simpa using h)
      rw [List.filter_cons_of_neg h]
      simp [List.filterMap_cons, hb, ih]

/-- C6 (amended): `ingest_data` filters out exactly the non-DataFrame and
empty batches: given at least one valid batch the `validate=False` call
succeeds, and removing the invalid batches from the argument does not change
the result.  Batches that are DataFrames but lack required columns are
processed, not filtered (see the counterexample), and with `validate=True`
the whole call currently fails at the line-60 format specifier (see C4). -/
theorem C6_invalid_batches_filtered (batches : List Batch)
    (h : ∃ b ∈ batches, isValidBatch b = true) :
    (∃ f, ingest_data batches false = .ok f) ∧
      ingest_data batches false = ingest_data (batches.filter isValidBatch) false := by
  obtain ⟨b, hb, hvb⟩ := h
  have hb1 : batches.isEmpty = false := by
    rw [List.isEmpty_eq_false]
    exact List.ne_nil_of_mem hb
  have hfm : ∃ fr, batchFrame b = some fr := by
    cases b with
    | invalid => simp [isValidBatch] at hvb
    | frame f =>
      refine ⟨f, ?_⟩
      simp only [isValidBatch, Bool.not_eq_true'] at hvb
      simp [batchFrame, hvb]
  obtain ⟨fr, hfr⟩ := hfm
  have hvne : (batches.filterMap batchFrame).isEmpty = false := by
    rw [List.isEmpty_eq_false]
    exact List.ne_nil_of_mem (List.mem_filterMap.mpr ⟨b, hb, hfr⟩)
  have hb2 : (batches.filter isValidBatch).isEmpty = false := by
    rw [List.isEmpty_eq_false]
    exact List.ne_nil_of_mem (List.mem_filter.mpr ⟨hb, hvb⟩)
  have hveq := filterMap_batchFrame_filter batches
  have hform : ingest_data batches false = .ok
      { hasOutlier := (batches.filterMap batchFrame).any (·.hasOutlier)
        hasAnomaly := (batches.filterMap batchFrame).any (·.hasAnomaly)
        rows := (batches.filterMap batchFrame).flatMap (·.rows) } := by
    simp only [ingest_data, hb1, hvne, reduceIte]
    rfl
  constructor
  · exact ⟨_, hform⟩
  · simp only [ingest_data, hveq, hb1, hb2, hvne, reduceIte]

/-- C6 witness: the amended filtering theorem applied to a concrete batch
list containing one non-DataFrame entry and one valid batch. -/
theorem C6_invalid_batches_filtered_witness :
    (∃ f, ingest_data [Batch.invalid, Batch.frame oneRowBatch] false = .ok f) ∧
      ingest_data [Batch.invalid, Batch.frame oneRowBatch] false
        = ingest_data ([Batch.invalid, Batch.frame oneRowBatch].filter isValidBatch) false :=
  C6_invalid_batches_filtered [Batch.invalid, Batch.frame oneRowBatch]
    ⟨Batch.frame oneRowBatch, by decide, by decide⟩

end DataProcessing
